import Mathlib

/-!
Verification development for the SmartCrawler engine
(nodes/SmartCrawler/CrawlerEngine.ts).

The engine is embedded shallowly:

* HTML documents are modelled as a tree of element/text nodes (`Node`);
  the HTML parsing library (cheerio) is treated, as the design document
  prescribes, as an opaque query capability: we realise exactly the
  selector fragment the engine and its configurations use (tag names,
  single class names, attribute presence, comma-separated unions), with
  cheerio's behaviour of returning the empty selection for a falsy
  selector string.
* A selected element is a `Cursor`: the node together with its ancestor
  chain, so that the upward-walking link heuristics (closest / parent)
  of the source can be expressed.
* The HTTP transport (axios.get) and the WHATWG URL constructor
  (new URL(rel, base)) are opaque capabilities, collected in `Env`:
  `fetch` maps a URL and headers to a parsed document or a thrown error
  message, `mkUrl` maps (rel, base) to an absolute URL or to `none`
  (the constructor threw).  Thrown JS exceptions are `Except.error`.
* The puppeteer rendering backend is out of the engine's scope per the
  design document ("treated as an opaque capability"); the embedding
  covers the static acquisition path (useBrowser = false), which is the
  path all the examined claims cite.
* Functions additionally return the list of URLs passed to `fetch`, in
  call order (`extractFieldT`, `crawlT`): a ghost trace used to state
  "no fetch is issued" properties.
-/

/-- A parsed HTML node: an element with tag, attributes and children,
or a text node.  Mirrors the DOM view cheerio exposes to the engine. -/
inductive Node where
  | elem (tag : String) (attrs : List (String × String)) (children : List Node)
  | text (s : String)
deriving Repr

/-- First binding of an attribute name in an attribute list
(`el.attr(name)`; `none` is JS `undefined`). -/
def attrGet (attrs : List (String × String)) (name : String) : Option String :=
  match attrs with
  | [] => none
  | (k, v) :: rest => if k = name then some v else attrGet rest name

/-- Does the character list start with the pattern? -/
def strStarts : List Char → List Char → Bool
  | [], _ => true
  | _ :: _, [] => false
  | p :: ps, c :: rest => p == c && strStarts ps rest

/-- JS `s.startsWith(p)`. -/
def strStartsWith (s p : String) : Bool := strStarts p.toList s.toList

/-- JS `s.trim()`: strip whitespace from both ends. -/
def strTrim (s : String) : String :=
  ⟨((s.toList.dropWhile Char.isWhitespace).reverse.dropWhile Char.isWhitespace).reverse⟩

/-- Split a character list on a separator character, accumulating the
current chunk in reverse. -/
def charSplit (sep : Char) : List Char → List Char → List (List Char)
  | [], cur => [cur.reverse]
  | c :: rest, cur =>
    if c == sep then cur.reverse :: charSplit sep rest []
    else charSplit sep rest (c :: cur)

/-- JS truthiness of an optional string (`undefined` and `''` are falsy). -/
def optTruthy : Option String → Bool
  | none => false
  | some s => s != ""

/-- Does the element's `class` attribute (split on spaces) contain `cls`? -/
def hasClass (attrs : List (String × String)) (cls : String) : Bool :=
  match attrGet attrs "class" with
  | some v => (charSplit ' ' v.toList []).contains cls.toList
  | none => false

/-- One simple selector: `.c` matches by class, `[a]` by attribute
presence, anything else by tag name.  This is the selector fragment the
engine's own internal queries use ('a', '[onclick], [data-href],
[data-url]') and the fragment our configurations exercise; the design
document treats the full CSS engine as an opaque capability. -/
def matchesSimple (sel tag : String) (attrs : List (String × String)) : Bool :=
  if strStartsWith sel "." then hasClass attrs ⟨sel.toList.drop 1⟩
  else if strStartsWith sel "[" then (attrGet attrs ⟨(sel.toList.drop 1).dropLast⟩).isSome
  else tag == sel

/-- A comma-separated selector union, as in '[onclick], [data-href], [data-url]'. -/
def matchesSel (sel tag : String) (attrs : List (String × String)) : Bool :=
  (charSplit ',' sel.toList []).any (fun part => matchesSimple (strTrim ⟨part⟩) tag attrs)

/-- A selected element: the node plus its ancestor chain (nearest
ancestor first), so the engine's upward-walking heuristics
(.closest / .parent) are expressible. -/
structure Cursor where
  path : List Node
  node : Node
deriving Repr

/-- Does the cursor's node (necessarily an element) match the selector? -/
def cursorMatches (sel : String) (c : Cursor) : Bool :=
  match c.node with
  | .elem t a _ => matchesSel sel t a
  | .text _ => false

mutual
/-- All element cursors of the subtree rooted at `n`, in document
(pre-)order, with ancestor path `path` for the root. -/
def subCursors (path : List Node) : Node → List Cursor
  | .text _ => []
  | .elem t a cs => ⟨path, .elem t a cs⟩ :: subCursorsList (.elem t a cs :: path) cs
/-- All element cursors of a forest, in document order. -/
def subCursorsList (path : List Node) : List Node → List Cursor
  | [] => []
  | c :: cs => subCursors path c ++ subCursorsList path cs
end

/-- Selection `$(sel)` on a whole document: every matching element in document
order.  A falsy (empty) selector yields the empty selection, as in
cheerio. -/
def selectAll (root : Node) (sel : String) : List Cursor :=
  if sel == "" then [] else (subCursors [] root).filter (cursorMatches sel)

/-- Selection `element.find(sel)`: matching proper descendants of the element, in
document order.  A falsy selector yields the empty selection. -/
def findAll (c : Cursor) (sel : String) : List Cursor :=
  if sel == "" then [] else
  match c.node with
  | .text _ => []
  | .elem t a cs => (subCursorsList (.elem t a cs :: c.path) cs).filter (cursorMatches sel)

/-- Traversal `element.parent()`; `none` once the document root is reached. -/
def Cursor.parent (c : Cursor) : Option Cursor :=
  match c.path with
  | [] => none
  | p :: rest => some ⟨rest, p⟩

/-- Traversal `element.closest(sel)`: the element itself or its nearest matching
ancestor. -/
def closestSel (c : Cursor) (sel : String) : Option Cursor :=
  if cursorMatches sel c then some c
  else match c with
  | ⟨[], _⟩ => none
  | ⟨p :: rest, _⟩ => closestSel ⟨rest, p⟩ sel
termination_by c.path.length
decreasing_by simp [Cursor.path]

mutual
/-- Extraction `element.text()`: concatenated text content of the subtree. -/
def nodeText : Node → String
  | .text s => s
  | .elem _ _ cs => listText cs
/-- Concatenated text content of a forest. -/
def listText : List Node → String
  | [] => ""
  | c :: cs => nodeText c ++ listText cs
end

/-- Serialized attribute list, as a serializer would print it. -/
def renderAttrs : List (String × String) → String
  | [] => ""
  | (k, v) :: rest => " " ++ k ++ "=\"" ++ v ++ "\"" ++ renderAttrs rest

mutual
/-- Serialized markup of a node. -/
def renderNode : Node → String
  | .text s => s
  | .elem t a cs => "<" ++ t ++ renderAttrs a ++ ">" ++ renderList cs ++ "</" ++ t ++ ">"
/-- Serialized markup of a forest. -/
def renderList : List Node → String
  | [] => ""
  | c :: cs => renderNode c ++ renderList cs
end

/-- Extraction `element.html()`: the serialized inner markup of the element. -/
def innerHtml : Node → String
  | .text _ => ""
  | .elem _ _ cs => renderList cs

/-- Extraction `el.attr(name)` on a cursor. -/
def attrOf (c : Cursor) (name : String) : Option String :=
  match c.node with
  | .elem _ a _ => attrGet a name
  | .text _ => none

/-- JS `String.prototype.replace' with a string pattern: replaces the
first occurrence only (an empty pattern inserts the replacement at the
start). -/
def repFirstAux (pat rep : List Char) : List Char → List Char
  | [] => []
  | c :: rest =>
    if strStarts pat (c :: rest) then rep ++ (c :: rest).drop pat.length
    else c :: repFirstAux pat rep rest

/-- JS `s.replace(pat, rep)` (first occurrence only). -/
def replaceFirst (s pat rep : String) : String :=
  if pat == "" then rep ++ s
  else ⟨repFirstAux pat.toList rep.toList s.toList⟩

/-- Skip leading whitespace (the regex fragment `\s*`). -/
def skipWs : List Char → List Char
  | [] => []
  | c :: rest => if c.isWhitespace then skipWs rest else c :: rest

/-- The regex fragment `['"]([^'"]+)['"]`: an opening quote of either
kind, at least one quote-free character, then a closing quote of either
kind; returns the captured group. -/
def parseQuoted : List Char → Option String
  | [] => none
  | q :: rest =>
    if q == '\'' || q == '"' then
      let content := rest.takeWhile (fun c => c != '\'' && c != '"')
      match rest.drop content.length with
      | q2 :: _ =>
        if (q2 == '\'' || q2 == '"') && !content.isEmpty then some ⟨content⟩ else none
      | [] => none
    else none

/-- The regex tail `\s*=\s*['"]([^'"]+)['"]` after a location keyword. -/
def afterAssign (cs : List Char) : Option String :=
  match skipWs cs with
  | '=' :: cs2 => parseQuoted (skipWs cs2)
  | _ => none

/-- One anchoring position of the onclick assignment regex
`(?:location\.href|window\.location|location)\s*=\s*['"]([^'"]+)['"]`,
with the alternation tried in the regex's order. -/
def tryAssignAt (cs : List Char) : Option String :=
  (if strStarts "location.href".toList cs then afterAssign (cs.drop 13) else none) <|>
  (if strStarts "window.location".toList cs then afterAssign (cs.drop 15) else none) <|>
  (if strStarts "location".toList cs then afterAssign (cs.drop 8) else none)

/-- Left-to-right scan of the assignment regex. -/
def scanAssign : List Char → Option String
  | [] => none
  | c :: rest => tryAssignAt (c :: rest) <|> scanAssign rest

/-- The full onclick assignment match
`(?:location\.href|window\.location|location)\s*=\s*['"]([^'"]+)['"]`,
returning the captured URL. -/
def matchAssignUrl (s : String) : Option String := scanAssign s.toList

/-- One anchoring position of `window\.open\s*\(\s*['"]([^'"]+)['"]`. -/
def tryOpenAt (cs : List Char) : Option String :=
  if strStarts "window.open".toList cs then
    match skipWs (cs.drop 11) with
    | '(' :: cs2 => parseQuoted (skipWs cs2)
    | _ => none
  else none

/-- Left-to-right scan of the window.open regex. -/
def scanOpen : List Char → Option String
  | [] => none
  | c :: rest => tryOpenAt (c :: rest) <|> scanOpen rest

/-- The full onclick match of `window\.open\s*\(\s*['"]([^'"]+)['"]`,
returning the captured URL. -/
def matchOpenUrl (s : String) : Option String := scanOpen s.toList

/-- The marker prefixed to an opaque identifier by the link resolver
(`__data_id__:` in the source). -/
def dataIdMark : String := "__data_id__:"

/-- The conventional data attributes checked for client-side navigation. -/
def dataAttrNames : List String :=
  ["data-href", "data-url", "data-link", "data-src", "data-target-url"]

/-- The conventional identifier attributes checked for the data-id pattern. -/
def dataIdAttrNames : List String := ["data-id", "data-item-id", "data-model-id"]

/-- JS `el.attr(a) || el.attr(b) || ...`: the first present, non-empty
value among the named attributes. -/
def firstTruthyAttr (el : Cursor) : List String → Option String
  | [] => none
  | a :: rest =>
    match attrOf el a with
    | some v => if v == "" then firstTruthyAttr el rest else some v
    | none => firstTruthyAttr el rest

/-- CrawlerEngine.extractUrlFromElement: the ordered extraction
heuristics on one candidate element — canonical href (rejecting
fragment and javascript pseudo-links), conventional data attributes
(absolute or root-relative values only), onclick patterns, and finally
the data-id marker. -/
def extractUrlFromElement (el : Cursor) : Option String :=
  (match attrOf el "href" with
   | some href =>
     if href != "" && !strStartsWith href "#" && !strStartsWith href "javascript:" then
       some href
     else none
   | none => none) <|>
  (dataAttrNames.findSome? fun a =>
    match attrOf el a with
    | some v => if strStartsWith v "/" || strStartsWith v "http" then some v else none
    | none => none) <|>
  matchAssignUrl ((attrOf el "onclick").getD "") <|>
  matchOpenUrl ((attrOf el "onclick").getD "") <|>
  (match firstTruthyAttr el dataIdAttrNames with
   | some dataId => some (dataIdMark ++ dataId)
   | none => none)

/-- Step 5 of CrawlerEngine.findClickableLink: walk up through up to 3
ancestor containers; in each, try the first anchor descendant, then the
first descendant with an onclick / data-href / data-url attribute. -/
def containerLoop : Option Cursor → Nat → Option String
  | none, _ => none
  | some _, 0 => none
  | some cont, Nat.succ n =>
    ((findAll cont "a").head?.bind extractUrlFromElement) <|>
    ((findAll cont "[onclick], [data-href], [data-url]").head?.bind extractUrlFromElement) <|>
    containerLoop cont.parent n

/-- CrawlerEngine.findClickableLink: the ordered fallback chain that
discovers a navigation link starting from an element. -/
def findClickableLink (element : Cursor) (clickSelector : String) : Option String :=
  (if clickSelector != "" then
    (findAll element clickSelector).head?.bind extractUrlFromElement
   else none) <|>
  extractUrlFromElement element <|>
  ((findAll element "a").head?.bind extractUrlFromElement) <|>
  ((closestSel element "a").bind extractUrlFromElement) <|>
  containerLoop element.parent 3

/-- CrawlerEngine.resolveUrl: `try { return new URL(rel, base).href }
catch { return rel }`.  The WHATWG URL constructor is the opaque
capability `mkUrl rel base`; `none` models the constructor throwing. -/
def resolveUrl (mkUrl : String → String → Option String) (base rel : String) : String :=
  match mkUrl rel base with
  | some u => u
  | none => rel

/-- The extraction kind of a plain field ('text' | 'html' | 'attribute';
the last is spelled `attr` because `attribute` is a Lean keyword). -/
inductive FieldType where
  | text
  | html
  | attr
deriving Repr, DecidableEq

mutual
/-- FieldConfig of the source: name, selector, extraction type, optional
attribute name, jump flag and optional jump configuration. -/
inductive FieldConfig where
  | mk (name : String) (selector : String) (ftype : FieldType) (attr : Option String)
      (isJump : Bool) (jumpConfig : Option JumpConfig)
/-- JumpConfig of the source: click selector, optional target selector,
optional URL template for the data-id pattern, and child fields.  The
source's optional array `fields?: FieldConfig[]` is observed only
through the truthiness of `fields?.length`, i.e. through the list being
non-empty, so it is embedded as a plain list. -/
inductive JumpConfig where
  | mk (clickSelector : String) (targetSelector : Option String) (urlTemplate : Option String)
      (fields : List FieldConfig)
end

def FieldConfig.name : FieldConfig → String
  | .mk n _ _ _ _ _ => n

def FieldConfig.selector : FieldConfig → String
  | .mk _ s _ _ _ _ => s

def FieldConfig.ftype : FieldConfig → FieldType
  | .mk _ _ t _ _ _ => t

def FieldConfig.attr : FieldConfig → Option String
  | .mk _ _ _ a _ _ => a

def FieldConfig.isJump : FieldConfig → Bool
  | .mk _ _ _ _ j _ => j

def FieldConfig.jumpConfig : FieldConfig → Option JumpConfig
  | .mk _ _ _ _ _ c => c

def JumpConfig.clickSelector : JumpConfig → String
  | .mk c _ _ _ => c

def JumpConfig.targetSelector : JumpConfig → Option String
  | .mk _ t _ _ => t

def JumpConfig.urlTemplate : JumpConfig → Option String
  | .mk _ _ u _ => u

def JumpConfig.fields : JumpConfig → List FieldConfig
  | .mk _ _ _ f => f

/-- An extracted value: `null`, a string, or (for a jump field with
child fields) a nested name-to-value record. -/
inductive Value where
  | null
  | str (s : String)
  | obj (fields : List (String × Value))
deriving Repr

/-- A string-or-null extraction result as a `Value`. -/
def valueOfOpt : Option String → Value
  | none => .null
  | some s => .str s

/-- CrawlerEngine.extractValue: text content trimmed (empty coerced to
null), inner markup (empty coerced to null), or a named attribute's
value (absent, or an untruthy attribute name, or an empty value, give
null — JS `attribute ? element.attr(attribute) || null : null`). -/
def extractValue (element : Cursor) (ty : FieldType) (attr : Option String) :
    Option String :=
  match ty with
  | .text =>
    let s := strTrim (nodeText element.node)
    if s == "" then none else some s
  | .html =>
    let h := innerHtml element.node
    if h == "" then none else some h
  | .attr =>
    match attr with
    | some a =>
      if a == "" then none
      else
        match attrOf element a with
        | some v => if v == "" then none else some v
        | none => none
    | none => none

/-- The request headers the engine sends: a Cookie header only when the
cookie string is truthy, and always a User-Agent. -/
structure Headers where
  cookie : Option String
  userAgent : String

/-- The source's header literal: a Cookie entry only when the cookie
string is truthy, plus the User-Agent. -/
def mkHeaders (cookie userAgent : String) : Headers :=
  ⟨if cookie == "" then none else some cookie, userAgent⟩

/-- The engine's opaque external capabilities: the HTTP transport
(axios.get composed with cheerio.load — both deterministic for given
inputs, an error value models a thrown exception) and the WHATWG URL
constructor used by resolveUrl. -/
structure Env where
  fetch : String → Headers → Except String Node
  mkUrl : String → String → Option String

/-- The default desktop User-Agent string of the source. -/
def DEFAULT_UA : String := "Mozilla/5.0 (Windows NT 10.0; Win64; x64) AppleWebKit/537.36"

/-- The depth-guard message thrown by extractField at jumpLevel > 3. -/
def depthErrMsg : String := "最多支持3跳"

/-- JS object assignment `rec[k] = v`: overwrites in place if the key
exists, else appends (JS property insertion order). -/
def recordInsert (rec : List (String × Value)) (k : String) (v : Value) :
    List (String × Value) :=
  match rec with
  | [] => [(k, v)]
  | (k', v') :: rest => if k' = k then (k', v) :: rest else (k', v') :: recordInsert rest k v

/-- The child-field loop of extractField, parameterised by the
extraction of one child: sequential extraction into a record; an
exception from any child propagates (the loop in the source has no
try/catch), with the URLs fetched so far kept in the trace. -/
def extractFieldsGoWith (f : FieldConfig → Except String Value × List String) :
    List FieldConfig → List (String × Value) →
    Except String (List (String × Value)) × List String
  | [], acc => (.ok acc, [])
  | sf :: rest, acc =>
    match f sf with
    | (.error e, t) => (.error e, t)
    | (.ok v, t) =>
      match extractFieldsGoWith f rest (recordInsert acc sf.name v) with
      | (r, t2) => (r, t ++ t2)

/-- CrawlerEngine.extractField (static acquisition path), instrumented
with the list of URLs passed to the HTTP transport, in call order.
`Except.error` models the function throwing.  Mirrors the source:
depth guard first, then anchor lookup (missing element gives null),
plain extraction when `!field.isJump || !field.jumpConfig`; for jump
fields the click-link heuristics, the data-id / urlTemplate
substitution (JS `replace` substitutes the first occurrence only), URL
resolution, the fetch, target selection (for an untruthy
targetSelector, the source's whole-`body` selection is modelled by its
first element — parsed documents carry a single body), and either
child-field recursion at jumpLevel + 1 or the target's trimmed text.

The recursion is driven by an explicit fuel counter so that it is
structural (hence kernel-computable).  Every recursive call decrements
the fuel exactly as it increments jumpLevel, so entering with fuel 0
implies jumpLevel exceeds the initial level by the initial fuel; with
initial fuel 4 (see `extractFieldT`) a fuel-0 entry always has
jumpLevel > 3, where the source's own depth guard throws — the fuel-0
result is therefore exactly the source's result, and the fuel is
semantically invisible (`extractFieldGo_fuel_irrel`). -/
def extractFieldGo : Nat → Env → Cursor → FieldConfig → String → String → String → Nat →
    Except String Value × List String
  | 0, _, _, _, _, _, _, _ => (.error depthErrMsg, [])
  | fuel + 1, env, element, field, baseUrl, cookie, userAgent, jumpLevel =>
    if jumpLevel > 3 then (.error depthErrMsg, [])
    else
      match (findAll element field.selector).head? with
      | none => (.ok .null, [])
      | some el =>
        match field with
        | .mk _ _ fty fattr _ none => (.ok (valueOfOpt (extractValue el fty fattr)), [])
        | .mk _ _ fty fattr false (some _) => (.ok (valueOfOpt (extractValue el fty fattr)), [])
        | .mk _ _ _ _ true (some (JumpConfig.mk cSel tSel uTmpl jfields)) =>
          match findClickableLink el cSel with
          | none => (.ok .null, [])
          | some href0 =>
            let href? : Option String :=
              if strStartsWith href0 dataIdMark then
                if optTruthy uTmpl then
                  some (replaceFirst (uTmpl.getD "") "\x7bid\x7d"
                    (replaceFirst href0 dataIdMark ""))
                else none
              else some href0
            match href? with
            | none => (.ok .null, [])
            | some href =>
              let jumpUrl := resolveUrl env.mkUrl baseUrl href
              match env.fetch jumpUrl (mkHeaders cookie userAgent) with
              | .error e => (.error e, [jumpUrl])
              | .ok doc =>
                let target? :=
                  if optTruthy tSel then (selectAll doc (tSel.getD "")).head?
                  else (selectAll doc "body").head?
                match target? with
                | none => (.ok .null, [jumpUrl])
                | some target =>
                  if jfields.isEmpty then
                    (.ok (.str (strTrim (nodeText target.node))), [jumpUrl])
                  else
                    match extractFieldsGoWith
                        (fun sf => extractFieldGo fuel env target sf jumpUrl cookie userAgent
                          (jumpLevel + 1)) jfields [] with
                    | (.error e, t) => (.error e, jumpUrl :: t)
                    | (.ok rec, t) => (.ok (.obj rec), jumpUrl :: t)

/-- CrawlerEngine.extractField with the ghost fetch trace: the fuel is
initialised to 4, which every reachable fuel-0 entry maps to the depth
guard's own behaviour (see `extractFieldGo`). -/
def extractFieldT (env : Env) (element : Cursor) (field : FieldConfig)
    (baseUrl cookie userAgent : String) (jumpLevel : Nat) :
    Except String Value × List String :=
  extractFieldGo 4 env element field baseUrl cookie userAgent jumpLevel

/-- CrawlerEngine.extractField's thrown-or-returned value, without the
ghost fetch trace. -/
def extractField (env : Env) (element : Cursor) (field : FieldConfig)
    (baseUrl cookie userAgent : String) (jumpLevel : Nat) : Except String Value :=
  (extractFieldT env element field baseUrl cookie userAgent jumpLevel).1

/-- CrawlerOptions of the source (static acquisition path).  Optional
JS fields are `Option`; the destructuring defaults (`cookie = ''`,
`userAgent = DEFAULT_UA`) are applied by `crawlT`. -/
structure CrawlerOptions where
  url : String
  listSelector : String
  fields : List FieldConfig
  cookie : Option String
  userAgent : Option String
  maxItems : Option Nat

/-- CrawlerResult of the source. -/
structure CrawlerResult where
  success : Bool
  data : List (List (String × Value))
  errors : List String
deriving Repr

/-- The per-item field loop of CrawlerEngine.crawl: each field's
extraction is guarded, a thrown error becomes a null entry plus a
"name: message" entry appended to the crawl's error list, and the
remaining fields still run.  Returns (record, errors, fetch trace). -/
def buildRecordAux (env : Env) (item : Cursor) (fields : List FieldConfig)
    (url cookie userAgent : String) (acc : List (String × Value)) (errs : List String) :
    List (String × Value) × List String × List String :=
  match fields with
  | [] => (acc, errs, [])
  | f :: rest =>
    match extractFieldT env item f url cookie userAgent 1 with
    | (.ok v, t) =>
      match buildRecordAux env item rest url cookie userAgent (recordInsert acc f.name v) errs with
      | (r, e2, t2) => (r, e2, t ++ t2)
    | (.error msg, t) =>
      match buildRecordAux env item rest url cookie userAgent (recordInsert acc f.name .null)
          (errs ++ [f.name ++ ": " ++ msg]) with
      | (r, e2, t2) => (r, e2, t ++ t2)

/-- The record of one list item (fresh `data = {}` per item). -/
def recordOf (env : Env) (item : Cursor) (fields : List FieldConfig)
    (url cookie userAgent : String) : List (String × Value) :=
  (buildRecordAux env item fields url cookie userAgent [] []).1

/-- The item loop of CrawlerEngine.crawl over the selected (and
maxItems-capped) list items, in document order: one record appended
per item, errors accumulated across items in order. -/
def crawlItemsGo (env : Env) (items : List Cursor) (fields : List FieldConfig)
    (url cookie userAgent : String) :
    List (List (String × Value)) × List String × List String :=
  match items with
  | [] => ([], [], [])
  | it :: rest =>
    match buildRecordAux env it fields url cookie userAgent [] [] with
    | (rec, errs, tr) =>
      match crawlItemsGo env rest fields url cookie userAgent with
      | (recs, errs2, tr2) => (rec :: recs, errs ++ errs2, tr ++ tr2)

/-- The list-not-found error message of the source
(`未找到列表: "<selector>"`). -/
def listNotFoundMsg (sel : String) : String := "未找到列表: \"" ++ sel ++ "\""

/-- The `maxItems ? Math.min(items.length, maxItems) : items.length`
item count (JS 0 is falsy). -/
def itemCount (maxItems : Option Nat) (len : Nat) : Nat :=
  match maxItems with
  | some n => if n = 0 then len else min len n
  | none => len

/-- The headers of every request the crawl issues: the JS destructuring
defaults (`cookie = ''`, `userAgent = DEFAULT_UA`) applied to the
options, passed through `mkHeaders`. -/
def reqHeaders (options : CrawlerOptions) : Headers :=
  mkHeaders (options.cookie.getD "") (options.userAgent.getD DEFAULT_UA)

/-- CrawlerEngine.crawl (static acquisition path), instrumented with
the list of URLs passed to the HTTP transport in call order.  Mirrors
the source: destructuring defaults, the guarded top-level fetch (a
thrown fetch error gives success = false with the message), list
selection with the zero-match early return, the maxItems cap, and the
guarded per-item/per-field extraction loop. -/
def crawlT (env : Env) (options : CrawlerOptions) : CrawlerResult × List String :=
  match env.fetch options.url (reqHeaders options) with
  | .error e => (⟨false, [], [e]⟩, [options.url])
  | .ok doc =>
    let items := selectAll doc options.listSelector
    if items.isEmpty then
      (⟨false, [], [listNotFoundMsg options.listSelector]⟩, [options.url])
    else
      let count := itemCount options.maxItems items.length
      match crawlItemsGo env (items.take count) options.fields options.url
          (options.cookie.getD "") (options.userAgent.getD DEFAULT_UA) with
      | (recs, errs, tr) => (⟨true, recs, errs⟩, options.url :: tr)

/-- CrawlerEngine.crawl's returned CrawlerResult. -/
def crawl (env : Env) (options : CrawlerOptions) : CrawlerResult :=
  (crawlT env options).1

/-- The URLs CrawlerEngine.crawl hands to the HTTP transport, in order. -/
def crawlTrace (env : Env) (options : CrawlerOptions) : List String :=
  (crawlT env options).2

/-! Concrete documents, configurations and environments used by the
witnesses and counterexamples below. -/

/-- A list page: one list item with a plain title and a detail link. -/
def liC1N : Node :=
  .elem "li" [("class", "item")] [
    .elem "span" [("class", "t")] [.text "T1"],
    .elem "a" [("class", "d"), ("href", "/p2")] [.text "go"]]
def bodyC1N : Node := .elem "body" [] [liC1N]
def docListC1 : Node := .elem "html" [] [bodyC1N]
/-- The cursor of the single list item of `docListC1`. -/
def itemC1Cur : Cursor := ⟨[bodyC1N, docListC1], liC1N⟩

/-- First-hop page: a target with a plain sibling field and a further link. -/
def docHop2C1 : Node :=
  .elem "html" [] [.elem "body" [] [
    .elem "div" [("class", "tgt")] [
      .elem "span" [("class", "p2")] [.text "V2"],
      .elem "a" [("class", "d2"), ("href", "/p3")] []]]]

/-- Second-hop page. -/
def docHop3C1 : Node :=
  .elem "div" [("class", "tgt3")] [
    .elem "span" [("class", "p3")] [.text "V3"],
    .elem "a" [("class", "d3"), ("href", "/p4")] []]

/-- Third-hop page: its child fields sit at jump level 4. -/
def docHop4C1 : Node :=
  .elem "div" [("class", "tgt4")] [.elem "span" [("class", "x")] [.text "V4"]]

def fldL4C1 : FieldConfig := .mk "f4" ".x" .text none false none
def fldL3C1 : FieldConfig :=
  .mk "f3" ".d3" .text none true (some (.mk "" (some ".tgt4") none [fldL4C1]))
def pln3C1 : FieldConfig := .mk "p3" ".p3" .text none false none
def fldL2C1 : FieldConfig :=
  .mk "f2" ".d2" .text none true (some (.mk "" (some ".tgt3") none [fldL3C1, pln3C1]))
def pln2C1 : FieldConfig := .mk "p2" ".p2" .text none false none
/-- A navigation chain configured to recurse a 4th level, with plain
sibling fields at levels 2 and 3. -/
def chainFldC1 : FieldConfig :=
  .mk "chain" ".d" .text none true (some (.mk "" (some ".tgt") none [fldL2C1, pln2C1]))
def titleFld : FieldConfig := .mk "title" ".t" .text none false none

/-- Fetch oracle of the 4-level-chain scenario. -/
def env1 : Env :=
  ⟨fun u _ =>
    if u = "https://s/l" then .ok docListC1
    else if u = "/p2" then .ok docHop2C1
    else if u = "/p3" then .ok docHop3C1
    else if u = "/p4" then .ok docHop4C1
    else .error "network",
   fun rel _ => some rel⟩

def opts1 : CrawlerOptions := ⟨"https://s/l", ".item", [titleFld, chainFldC1], none, none, none⟩

/-- A three-item list page (the shape of the repository's own test
fixture: three items, each with a title, an author and a link). -/
def docList3 : Node :=
  .elem "html" [] [.elem "body" [] [.elem "ul" [("class", "item-list")] [
    .elem "li" [("class", "item")] [
      .elem "span" [("class", "t")] [.text "t1"],
      .elem "a" [("class", "link"), ("href", "/d/1")] [.text "more"]],
    .elem "li" [("class", "item")] [
      .elem "span" [("class", "t")] [.text "t2"],
      .elem "a" [("class", "link"), ("href", "/d/2")] [.text "more"]],
    .elem "li" [("class", "item")] [
      .elem "span" [("class", "t")] [.text "t3"],
      .elem "a" [("class", "link"), ("href", "/d/3")] [.text "more"]]]]]

def linkFld : FieldConfig := .mk "link" ".link" .attr (some "href") false none

/-- Fetch oracle serving only the three-item list page. -/
def env3 : Env :=
  ⟨fun u _ => if u = "https://s/l" then .ok docList3 else .error "network",
   fun rel _ => some rel⟩

def opts3 : CrawlerOptions :=
  ⟨"https://s/l", ".item", [titleFld, linkFld], none, none, some 2⟩

/-- A clickable element carrying only an opaque identifier attribute
(`data-item-id="42"`), no href. -/
def cardN : Node := .elem "div" [("class", "card"), ("data-item-id", "42")] [.text "open"]
def liOpaqueN : Node :=
  .elem "li" [("class", "item")] [.elem "span" [("class", "t")] [.text "T1"], cardN]
def bodyOpaqueN : Node := .elem "body" [] [liOpaqueN]
def docOpaque : Node := .elem "html" [] [bodyOpaqueN]
/-- The cursor of the single list item of `docOpaque`. -/
def itemOpaqueCur : Cursor := ⟨[bodyOpaqueN, docOpaque], liOpaqueN⟩
/-- The cursor of the clickable card element of `docOpaque`. -/
def cardOpaqueCur : Cursor := ⟨[liOpaqueN, bodyOpaqueN, docOpaque], cardN⟩

/-- A jump configuration with no urlTemplate. -/
def jcOpaque : JumpConfig := .mk "a" (some ".body") none []

/-- A navigation field whose link resolves to an OpaqueId and whose
jump configuration has no urlTemplate. -/
def opaqueFld : FieldConfig := .mk "detail" ".card" .text none true (some jcOpaque)

def envOpaque : Env :=
  ⟨fun u _ => if u = "https://s/l" then .ok docOpaque else .error "network",
   fun rel _ => some rel⟩

def optsOpaque : CrawlerOptions :=
  ⟨"https://s/l", ".item", [titleFld, opaqueFld], none, none, none⟩

/-- An element carrying an attribute that is present but empty. -/
def emptyAttrEl : Cursor := ⟨[], .elem "a" [("href", "")] [.text "x"]⟩

/-- Options with an empty list selector. -/
def optsEmptySel : CrawlerOptions := ⟨"https://s/l", "", [titleFld], none, none, none⟩

/-- Options whose list selector matches nothing in `docList3`. -/
def optsNope : CrawlerOptions := ⟨"https://s/l", ".nope", [titleFld, linkFld], none, none, none⟩

/-- An element carrying a present, non-empty attribute. -/
def hrefAttrEl : Cursor := ⟨[], .elem "a" [("href", "/d/1")] [.text "x"]⟩


/-! Supporting lemmas. -/

theorem recordInsert_not_mem (rec : List (String × Value)) (k : String) (v : Value)
    (h : k ∉ rec.map Prod.fst) : recordInsert rec k v = rec ++ [(k, v)] := by
  induction rec with
  | nil => rfl
  | cons p rest ih =>
    obtain ⟨a, b⟩ := p
    simp only [List.map_cons, List.mem_cons] at h
    push_neg at h
    simp only [recordInsert, List.cons_append]
    rw [if_neg (fun hk => h.1 hk.symm), ih h.2]

theorem mem_keys_recordInsert_self (rec : List (String × Value)) (k : String) (v : Value) :
    k ∈ (recordInsert rec k v).map Prod.fst := by
  induction rec with
  | nil => simp [recordInsert]
  | cons p rest ih =>
    obtain ⟨a, b⟩ := p
    by_cases hk : a = k
    · simp [recordInsert, hk]
    · simp only [recordInsert, if_neg hk, List.map_cons, List.mem_cons]
      exact Or.inr ih

theorem mem_keys_recordInsert_mono (rec : List (String × Value)) (k k' : String) (v : Value)
    (h : k' ∈ rec.map Prod.fst) : k' ∈ (recordInsert rec k v).map Prod.fst := by
  induction rec with
  | nil => simp at h
  | cons p rest ih =>
    obtain ⟨a, b⟩ := p
    simp only [List.map_cons, List.mem_cons] at h
    by_cases hk : a = k
    · simp only [recordInsert, if_pos hk, List.map_cons, List.mem_cons]
      rcases h with h | h
      · exact Or.inl h
      · exact Or.inr h
    · simp only [recordInsert, if_neg hk, List.map_cons, List.mem_cons]
      rcases h with h | h
      · exact Or.inl h
      · exact Or.inr (ih h)

theorem buildRecordAux_keys_mono (env : Env) (item : Cursor) (url cookie userAgent : String) :
    ∀ (fields : List FieldConfig) (acc : List (String × Value)) (errs : List String)
      (k : String), k ∈ acc.map Prod.fst →
      k ∈ (buildRecordAux env item fields url cookie userAgent acc errs).1.map Prod.fst := by
  intro fields
  induction fields with
  | nil => intro acc errs k hk; simpa [buildRecordAux] using hk
  | cons f rest ih =>
    intro acc errs k hk
    rcases hE : extractFieldT env item f url cookie userAgent 1 with ⟨r, t⟩
    cases r with
    | ok v =>
      simp only [buildRecordAux, hE]
      exact ih _ _ k (mem_keys_recordInsert_mono acc f.name k v hk)
    | error e =>
      simp only [buildRecordAux, hE]
      exact ih _ _ k (mem_keys_recordInsert_mono acc f.name k .null hk)

theorem buildRecordAux_mem_keys (env : Env) (item : Cursor) (url cookie userAgent : String) :
    ∀ (fields : List FieldConfig) (acc : List (String × Value)) (errs : List String)
      (f : FieldConfig), f ∈ fields →
      f.name ∈ (buildRecordAux env item fields url cookie userAgent acc errs).1.map Prod.fst := by
  intro fields
  induction fields with
  | nil => intro acc errs f hf; simp at hf
  | cons g rest ih =>
    intro acc errs f hf
    rcases List.mem_cons.mp hf with hf | hf
    · subst hf
      rcases hE : extractFieldT env item f url cookie userAgent 1 with ⟨r, t⟩
      cases r with
      | ok v =>
        simp only [buildRecordAux, hE]
        exact buildRecordAux_keys_mono env item url cookie userAgent rest _ _ f.name
          (mem_keys_recordInsert_self acc f.name v)
      | error e =>
        simp only [buildRecordAux, hE]
        exact buildRecordAux_keys_mono env item url cookie userAgent rest _ _ f.name
          (mem_keys_recordInsert_self acc f.name .null)
    · rcases hE : extractFieldT env item g url cookie userAgent 1 with ⟨r, t⟩
      cases r with
      | ok v => simp only [buildRecordAux, hE]; exact ih _ _ f hf
      | error e => simp only [buildRecordAux, hE]; exact ih _ _ f hf

theorem buildRecordAux_keys_of_nodup (env : Env) (item : Cursor) (url cookie userAgent : String) :
    ∀ (fields : List FieldConfig) (acc : List (String × Value)) (errs : List String),
      (fields.map FieldConfig.name).Nodup →
      (∀ f ∈ fields, f.name ∉ acc.map Prod.fst) →
      (buildRecordAux env item fields url cookie userAgent acc errs).1.map Prod.fst
        = acc.map Prod.fst ++ fields.map FieldConfig.name := by
  intro fields
  induction fields with
  | nil => intro acc errs _ _; simp [buildRecordAux]
  | cons f rest ih =>
    intro acc errs hnd hdis
    have hfacc : f.name ∉ acc.map Prod.fst := hdis f (List.mem_cons_self f rest)
    have hnd' : (rest.map FieldConfig.name).Nodup := (List.nodup_cons.mp hnd).2
    have hfrest : f.name ∉ rest.map FieldConfig.name := (List.nodup_cons.mp hnd).1
    have hdis' : ∀ (v : Value), ∀ g ∈ rest,
        g.name ∉ (recordInsert acc f.name v).map Prod.fst := by
      intro v g hg
      rw [recordInsert_not_mem acc f.name v hfacc]
      simp only [List.map_append, List.map_cons, List.map_nil, List.mem_append,
        List.mem_singleton]
      rintro (hga | hga)
      · exact hdis g (List.mem_cons_of_mem f hg) hga
      · exact hfrest (hga ▸ List.mem_map_of_mem FieldConfig.name hg)
    rcases hE : extractFieldT env item f url cookie userAgent 1 with ⟨r, t⟩
    have step : ∀ (v : Value) (errs2 : List String),
        (buildRecordAux env item rest url cookie userAgent (recordInsert acc f.name v)
          errs2).1.map Prod.fst = acc.map Prod.fst ++ (f :: rest).map FieldConfig.name := by
      intro v errs2
      rw [ih (recordInsert acc f.name v) errs2 hnd' (hdis' v),
        recordInsert_not_mem acc f.name v hfacc]
      simp [List.append_assoc]
    cases r with
    | ok v => simp only [buildRecordAux, hE]; exact step v errs
    | error e => simp only [buildRecordAux, hE]; exact step .null (errs ++ [f.name ++ ": " ++ e])

theorem crawlItemsGo_fst (env : Env) (fields : List FieldConfig) (url cookie userAgent : String) :
    ∀ (items : List Cursor),
      (crawlItemsGo env items fields url cookie userAgent).1
        = items.map (fun it => recordOf env it fields url cookie userAgent) := by
  intro items
  induction items with
  | nil => rfl
  | cons it rest ih =>
    simp only [crawlItemsGo, List.map_cons]
    rcases hB : buildRecordAux env it fields url cookie userAgent [] [] with ⟨rec, errs, tr⟩
    rcases hG : crawlItemsGo env rest fields url cookie userAgent with ⟨recs, errs2, tr2⟩
    simp only [hG] at ih
    simp only [hB, hG]
    rw [ih]
    simp [recordOf, hB]

theorem crawlT_fetch_error (env : Env) (opts : CrawlerOptions) (e : String)
    (hf : env.fetch opts.url (reqHeaders opts) = .error e) :
    crawlT env opts = (⟨false, [], [e]⟩, [opts.url]) := by
  unfold crawlT
  rw [hf]

theorem crawlT_no_list (env : Env) (opts : CrawlerOptions) (doc : Node)
    (hf : env.fetch opts.url (reqHeaders opts) = .ok doc)
    (he : selectAll doc opts.listSelector = []) :
    crawlT env opts = (⟨false, [], [listNotFoundMsg opts.listSelector]⟩, [opts.url]) := by
  unfold crawlT
  rw [hf]
  simp [he]

theorem crawlT_ok (env : Env) (opts : CrawlerOptions) (doc : Node)
    (hf : env.fetch opts.url (reqHeaders opts) = .ok doc)
    (hne : selectAll doc opts.listSelector ≠ []) :
    crawlT env opts =
      (match crawlItemsGo env
          ((selectAll doc opts.listSelector).take
            (itemCount opts.maxItems (selectAll doc opts.listSelector).length))
          opts.fields opts.url (opts.cookie.getD "") (opts.userAgent.getD DEFAULT_UA) with
       | (recs, errs, tr) => (⟨true, recs, errs⟩, opts.url :: tr)) := by
  unfold crawlT
  rw [hf]
  have hE : (selectAll doc opts.listSelector).isEmpty = false := by
    simpa [List.isEmpty_iff] using hne
  simp [hE]

/-! The claims. -/

/-- Claim C10: resolveUrl is total and never throws — for every pair of
strings and every behaviour of the URL-constructor capability, it
returns the constructed absolute URL, and when construction fails (the
constructor throws, modelled as `none`) it returns `rel` unchanged, so
URL resolution can never abort a field extraction. -/
theorem resolveUrl_total_fallback (mkU : String → String → Option String)
    (base rel : String) :
    resolveUrl mkU base rel = (mkU rel base).getD rel
    ∧ (mkU rel base = none → resolveUrl mkU base rel = rel) := by
  constructor
  · unfold resolveUrl
    cases mkU rel base <;> rfl
  · intro h
    unfold resolveUrl
    rw [h]

/-- Witness for C10 at a concrete failing constructor. -/
theorem resolveUrl_total_fallback_witness :
    (fun (_ _ : String) => (none : Option String)) "b" "https://s/a" = none
    ∧ resolveUrl (fun _ _ => none) "https://s/a" "b" = "b" :=
  ⟨rfl, (resolveUrl_total_fallback (fun _ _ => none) "https://s/a" "b").2 rfl⟩

/-- Claim C8: crawl is deterministic over the fetched documents — two
executions with the same options and fetch capabilities that agree on
every URL/headers pair (byte-identical bodies, hence identical parsed
documents) produce identical CrawlerResults, and identical fetch
traces. -/
theorem crawl_deterministic (fetch1 fetch2 : String → Headers → Except String Node)
    (mkU : String → String → Option String) (opts : CrawlerOptions)
    (h : ∀ u hd, fetch1 u hd = fetch2 u hd) :
    crawl ⟨fetch1, mkU⟩ opts = crawl ⟨fetch2, mkU⟩ opts
    ∧ crawlTrace ⟨fetch1, mkU⟩ opts = crawlTrace ⟨fetch2, mkU⟩ opts := by
  have hf : fetch1 = fetch2 := funext fun u => funext fun hd => h u hd
  subst hf
  exact ⟨rfl, rfl⟩

/-- Witness for C8: an eta-expanded copy of a fetch capability gives
the identical result. -/
theorem crawl_deterministic_witness :
    crawl ⟨env3.fetch, env3.mkUrl⟩ opts3 = crawl ⟨fun u hd => env3.fetch u hd, env3.mkUrl⟩ opts3
    ∧ crawlTrace ⟨env3.fetch, env3.mkUrl⟩ opts3
        = crawlTrace ⟨fun u hd => env3.fetch u hd, env3.mkUrl⟩ opts3 :=
  crawl_deterministic env3.fetch (fun u hd => env3.fetch u hd) env3.mkUrl opts3
    (fun _ _ => rfl)

/-- Claim C4: when the top-level fetch succeeds but the list selector
matches zero elements, crawl returns success = false, an empty record
list, and exactly one error message, which contains the listSelector
string. -/
theorem crawl_no_list_result (env : Env) (opts : CrawlerOptions) (doc : Node)
    (hf : env.fetch opts.url (reqHeaders opts) = .ok doc)
    (he : selectAll doc opts.listSelector = []) :
    crawl env opts = ⟨false, [], [listNotFoundMsg opts.listSelector]⟩
    ∧ (crawl env opts).errors.length = 1
    ∧ (∃ a b, listNotFoundMsg opts.listSelector = a ++ opts.listSelector ++ b) := by
  have h := crawlT_no_list env opts doc hf he
  refine ⟨?_, ?_, ⟨"未找到列表: \"", "\"", rfl⟩⟩
  · unfold crawl
    rw [h]
  · unfold crawl
    rw [h]
    rfl

/-- Witness for C4 on a concrete document and the selector ".nope". -/
theorem crawl_no_list_result_witness :
    crawl env3 optsNope = ⟨false, [], [listNotFoundMsg ".nope"]⟩
    ∧ (crawl env3 optsNope).errors.length = 1
    ∧ (∃ a b, listNotFoundMsg ".nope" = a ++ ".nope" ++ b) :=
  crawl_no_list_result env3 optsNope docList3 rfl rfl

/-- Counterexample for C2: with an empty listSelector (and a fetchable
url), crawl does issue the top-level HTTP GET — the fetch trace is
exactly the top-level URL, not empty — contradicting the claim that no
fetch is issued before the configuration failure. -/
theorem crawl_validation_counterexample :
    crawlT env3 optsEmptySel = (⟨false, [], [listNotFoundMsg ""]⟩, ["https://s/l"])
    ∧ crawlTrace env3 optsEmptySel ≠ [] :=
  ⟨rfl, by decide⟩

/-- Claim C2 (amended): CrawlerEngine.crawl performs no fail-fast
validation of url or listSelector.  With an empty listSelector whose
(possibly empty) url fetches successfully, the top-level GET is issued
— the fetch trace is exactly the top-level url — and the crawl then
fails with success = false and the single list-not-found message
naming the empty selector; an empty url is likewise passed to the
fetch capability rather than rejected, the fetch's failure message
becoming the single error. -/
theorem crawl_no_validation (env : Env) (opts : CrawlerOptions) :
    (∀ doc : Node, opts.listSelector = "" →
      env.fetch opts.url (reqHeaders opts) = .ok doc →
      crawl env opts = ⟨false, [], [listNotFoundMsg ""]⟩
      ∧ crawlTrace env opts = [opts.url])
    ∧ (∀ e : String, opts.url = "" →
      env.fetch opts.url (reqHeaders opts) = .error e →
      crawl env opts = ⟨false, [], [e]⟩
      ∧ crawlTrace env opts = [""]) := by
  constructor
  · intro doc hsel hf
    have he : selectAll doc opts.listSelector = [] := by
      rw [hsel]
      rfl
    have h := crawlT_no_list env opts doc hf he
    rw [hsel] at h
    constructor
    · unfold crawl
      rw [h]
    · unfold crawlTrace
      rw [h]
  · intro e hurl hf
    have h := crawlT_fetch_error env opts e hf
    rw [hurl] at h
    constructor
    · unfold crawl
      rw [h]
    · unfold crawlTrace
      rw [h]

/-- Witness for the amended C2 on concrete inputs: the empty-selector
half with a fetchable document, and the empty-url half with a fetch
capability that throws on the empty URL. -/
theorem crawl_no_validation_witness :
    (crawl env3 optsEmptySel = ⟨false, [], [listNotFoundMsg ""]⟩
      ∧ crawlTrace env3 optsEmptySel = ["https://s/l"])
    ∧ (crawl env3 ⟨"", ".item", [titleFld], none, none, none⟩ = ⟨false, [], ["network"]⟩
      ∧ crawlTrace env3 ⟨"", ".item", [titleFld], none, none, none⟩ = [""]) :=
  ⟨(crawl_no_validation env3 optsEmptySel).1 docList3 rfl rfl,
   (crawl_no_validation env3 ⟨"", ".item", [titleFld], none, none, none⟩).2 "network" rfl rfl⟩

/-- Claim C3: for every options with positive maxItems = N whose
top-level fetch succeeds, the result satisfies data.length ≤ N and
data.length ≤ (number of listSelector matches in the fetched
document). -/
theorem crawl_maxItems_bounds (env : Env) (opts : CrawlerOptions) (doc : Node) (N : Nat)
    (hm : opts.maxItems = some N) (hN : 0 < N)
    (hf : env.fetch opts.url (reqHeaders opts) = .ok doc) :
    (crawl env opts).data.length ≤ N
    ∧ (crawl env opts).data.length ≤ (selectAll doc opts.listSelector).length := by
  by_cases he : selectAll doc opts.listSelector = []
  · have h := crawlT_no_list env opts doc hf he
    unfold crawl
    rw [h]
    simp
  · have h := crawlT_ok env opts doc hf he
    unfold crawl
    rw [h]
    rcases hG : crawlItemsGo env
        ((selectAll doc opts.listSelector).take
          (itemCount opts.maxItems (selectAll doc opts.listSelector).length))
        opts.fields opts.url (opts.cookie.getD "") (opts.userAgent.getD DEFAULT_UA)
      with ⟨recs, errs, tr⟩
    have hlen : recs.length
        = ((selectAll doc opts.listSelector).take
            (itemCount opts.maxItems (selectAll doc opts.listSelector).length)).length := by
      have hmap := crawlItemsGo_fst env opts.fields opts.url (opts.cookie.getD "")
        (opts.userAgent.getD DEFAULT_UA)
        ((selectAll doc opts.listSelector).take
          (itemCount opts.maxItems (selectAll doc opts.listSelector).length))
      rw [hG] at hmap
      dsimp only at hmap
      rw [hmap, List.length_map]
    simp only [hG]
    constructor
    · simp only [hlen, List.length_take, itemCount, hm]
      rw [if_neg (by omega : ¬ N = 0)]
      exact le_trans (Nat.min_le_left _ _) (Nat.min_le_right _ _)
    · simp only [hlen, List.length_take]
      exact Nat.min_le_right _ _

/-- Witness for C3 on the three-item document with maxItems = 2. -/
theorem crawl_maxItems_bounds_witness :
    (crawl env3 opts3).data.length ≤ 2
    ∧ (crawl env3 opts3).data.length ≤ (selectAll docList3 ".item").length :=
  crawl_maxItems_bounds env3 opts3 docList3 2 rfl (by omega) rfl

/-- Claim C7: when the top-level fetch succeeds and the list selector
matches, the records are exactly the per-item extraction of the
selector matches in document order (record i comes from match i), and
under the schema's unique-name invariant each record's keys are the
field names in declared order — no reordering, whichever fields are
navigational. -/
theorem crawl_order_preservation (env : Env) (opts : CrawlerOptions) (doc : Node)
    (hf : env.fetch opts.url (reqHeaders opts) = .ok doc)
    (hne : selectAll doc opts.listSelector ≠ []) :
    ((crawl env opts).data =
      ((selectAll doc opts.listSelector).take
          (itemCount opts.maxItems (selectAll doc opts.listSelector).length)).map
        (fun it => recordOf env it opts.fields opts.url (opts.cookie.getD "")
          (opts.userAgent.getD DEFAULT_UA)))
    ∧ ((opts.fields.map FieldConfig.name).Nodup →
        ∀ rec ∈ (crawl env opts).data, rec.map Prod.fst = opts.fields.map FieldConfig.name) := by
  have h := crawlT_ok env opts doc hf hne
  rcases hG : crawlItemsGo env
      ((selectAll doc opts.listSelector).take
        (itemCount opts.maxItems (selectAll doc opts.listSelector).length))
      opts.fields opts.url (opts.cookie.getD "") (opts.userAgent.getD DEFAULT_UA)
    with ⟨recs, errs, tr⟩
  simp only [hG] at h
  have hdata : (crawl env opts).data = recs := by
    unfold crawl
    rw [h]
  have hmap := crawlItemsGo_fst env opts.fields opts.url (opts.cookie.getD "")
    (opts.userAgent.getD DEFAULT_UA)
    ((selectAll doc opts.listSelector).take
      (itemCount opts.maxItems (selectAll doc opts.listSelector).length))
  rw [hG] at hmap
  dsimp only at hmap
  constructor
  · rw [hdata, hmap]
  · intro hnd rec hrec
    rw [hdata, hmap] at hrec
    obtain ⟨it, hit, rfl⟩ := List.mem_map.mp hrec
    unfold recordOf
    have hk := buildRecordAux_keys_of_nodup env it opts.url (opts.cookie.getD "")
      (opts.userAgent.getD DEFAULT_UA) opts.fields [] [] hnd (by simp)
    simpa using hk

/-- Witness for C7 on the three-item document (maxItems = 2, fields
title then link). -/
theorem crawl_order_preservation_witness :
    ((crawl env3 opts3).data =
      ((selectAll docList3 ".item").take (itemCount (some 2) (selectAll docList3 ".item").length)).map
        (fun it => recordOf env3 it [titleFld, linkFld] "https://s/l" "" DEFAULT_UA))
    ∧ ∀ rec ∈ (crawl env3 opts3).data, rec.map Prod.fst = ["title", "link"] := by
  have h := crawl_order_preservation env3 opts3 docList3 rfl
    (List.ne_nil_of_length_pos (by decide))
  exact ⟨h.1, fun rec hrec => h.2 (by decide) rec hrec⟩

/-- Claim C9: when the top-level fetch succeeds and the list selector
matches m ≥ 1 elements, the crawl yields exactly min(m, N) records for
positive maxItems = N and exactly m records when maxItems is absent or
0 — one record per processed item regardless of field failures — and
every record has an entry for every configured field name. -/
theorem crawl_record_count_entries (env : Env) (opts : CrawlerOptions) (doc : Node)
    (hf : env.fetch opts.url (reqHeaders opts) = .ok doc)
    (hne : selectAll doc opts.listSelector ≠ []) :
    (∀ N : Nat, opts.maxItems = some N → 0 < N →
      (crawl env opts).data.length = min (selectAll doc opts.listSelector).length N)
    ∧ (opts.maxItems = none →
      (crawl env opts).data.length = (selectAll doc opts.listSelector).length)
    ∧ (opts.maxItems = some 0 →
      (crawl env opts).data.length = (selectAll doc opts.listSelector).length)
    ∧ (∀ rec ∈ (crawl env opts).data, ∀ f ∈ opts.fields, f.name ∈ rec.map Prod.fst) := by
  have h := crawlT_ok env opts doc hf hne
  rcases hG : crawlItemsGo env
      ((selectAll doc opts.listSelector).take
        (itemCount opts.maxItems (selectAll doc opts.listSelector).length))
      opts.fields opts.url (opts.cookie.getD "") (opts.userAgent.getD DEFAULT_UA)
    with ⟨recs, errs, tr⟩
  simp only [hG] at h
  have hdata : (crawl env opts).data = recs := by
    unfold crawl
    rw [h]
  have hmap := crawlItemsGo_fst env opts.fields opts.url (opts.cookie.getD "")
    (opts.userAgent.getD DEFAULT_UA)
    ((selectAll doc opts.listSelector).take
      (itemCount opts.maxItems (selectAll doc opts.listSelector).length))
  rw [hG] at hmap
  dsimp only at hmap
  have hlen : (crawl env opts).data.length
      = min (itemCount opts.maxItems (selectAll doc opts.listSelector).length)
          (selectAll doc opts.listSelector).length := by
    rw [hdata, hmap, List.length_map, List.length_take]
  refine ⟨?_, ?_, ?_, ?_⟩
  · intro N hm hN
    rw [hlen]
    simp only [itemCount, hm]
    rw [if_neg (by omega : ¬ N = 0)]
    exact Nat.min_eq_left (Nat.min_le_left _ _)
  · intro hm
    rw [hlen]
    simp only [itemCount, hm]
    exact Nat.min_self _
  · intro hm
    rw [hlen]
    simp only [itemCount, hm, if_pos rfl]
    exact Nat.min_self _
  · intro rec hrec f hfld
    rw [hdata, hmap] at hrec
    obtain ⟨it, hit, rfl⟩ := List.mem_map.mp hrec
    unfold recordOf
    exact buildRecordAux_mem_keys env it opts.url (opts.cookie.getD "")
      (opts.userAgent.getD DEFAULT_UA) opts.fields [] [] f hfld

/-- Witness for C9 on the three-item document with maxItems = 2. -/
theorem crawl_record_count_entries_witness :
    (crawl env3 opts3).data.length = min (selectAll docList3 ".item").length 2
    ∧ (∀ rec ∈ (crawl env3 opts3).data, ∀ f ∈ [titleFld, linkFld],
        f.name ∈ rec.map Prod.fst) := by
  have h := crawl_record_count_entries env3 opts3 docList3 rfl
    (List.ne_nil_of_length_pos (by decide))
  exact ⟨h.1 2 rfl (by omega), h.2.2.2⟩

/-- Support lemma: once the list selector matched, partial failures
never flip success — the crawl returns success = true. -/
theorem crawl_success_of_matches (env : Env) (opts : CrawlerOptions) (doc : Node)
    (hf : env.fetch opts.url (reqHeaders opts) = .ok doc)
    (hne : selectAll doc opts.listSelector ≠ []) :
    (crawl env opts).success = true := by
  have h := crawlT_ok env opts doc hf hne
  unfold crawl
  rw [h]

/-- Counterexample for C5: an attribute that is present but empty is
extracted as null (the source's `|| null` coerces the empty string),
not as the attribute's value as the claim states. -/
theorem extract_attr_counterexample :
    attrOf emptyAttrEl "href" = some ""
    ∧ extractValue emptyAttrEl .attr (some "href") = none :=
  ⟨rfl, rfl⟩

/-- Claim C5 (amended): a field whose selector matches nothing
extracts null with no fetch; Text extracts the trimmed text content
with the empty string coerced to null; Markup extracts the serialized
inner markup with empty coerced to null; Attribute extracts the named
attribute's value when it is present AND non-empty, and null when the
attribute is absent, its value is empty, or the attribute name itself
is untruthy — extraction itself performs no I/O and no recursion. -/
theorem extract_value_semantics :
    (∀ (env : Env) (element : Cursor) (field : FieldConfig) (b c u : String) (lvl : Nat),
      lvl ≤ 3 → findAll element field.selector = [] →
      extractFieldT env element field b c u lvl = (.ok .null, []))
    ∧ (∀ (el : Cursor) (a : Option String),
        extractValue el .text a
          = if strTrim (nodeText el.node) == "" then none
            else some (strTrim (nodeText el.node)))
    ∧ (∀ (el : Cursor) (a : Option String),
        extractValue el .html a
          = if innerHtml el.node == "" then none else some (innerHtml el.node))
    ∧ (∀ (el : Cursor) (a v : String), a ≠ "" → attrOf el a = some v → v ≠ "" →
        extractValue el .attr (some a) = some v)
    ∧ (∀ (el : Cursor) (a : String), a ≠ "" → attrOf el a = some "" →
        extractValue el .attr (some a) = none)
    ∧ (∀ (el : Cursor) (a : String), a ≠ "" → attrOf el a = none →
        extractValue el .attr (some a) = none) := by
  refine ⟨?_, ?_, ?_, ?_, ?_, ?_⟩
  · intro env el f b c u lvl hlvl hfind
    unfold extractFieldT
    rw [show (4 : Nat) = 3 + 1 from rfl, extractFieldGo]
    rw [if_neg (by omega)]
    rw [hfind]
    rfl
  · intro el a
    rfl
  · intro el a
    rfl
  · intro el a v ha hv hvne
    simp [extractValue, hv, ha, hvne]
  · intro el a ha hv
    simp [extractValue, hv, ha]
  · intro el a ha hv
    simp [extractValue, hv, ha]

/-- Witness for the amended C5 across its cases, at concrete elements. -/
theorem extract_value_semantics_witness :
    extractFieldT env3 itemC1Cur (.mk "missing" ".zzz" .text none false none)
        "https://s/l" "" DEFAULT_UA 1 = (.ok .null, [])
    ∧ extractValue hrefAttrEl .text none
        = (if strTrim (nodeText hrefAttrEl.node) == "" then none
           else some (strTrim (nodeText hrefAttrEl.node)))
    ∧ extractValue hrefAttrEl .html none
        = (if innerHtml hrefAttrEl.node == "" then none else some (innerHtml hrefAttrEl.node))
    ∧ extractValue hrefAttrEl .attr (some "href") = some "/d/1"
    ∧ extractValue emptyAttrEl .attr (some "href") = none
    ∧ extractValue hrefAttrEl .attr (some "nope") = none := by
  refine ⟨extract_value_semantics.1 env3 itemC1Cur
      (.mk "missing" ".zzz" .text none false none) "https://s/l" "" DEFAULT_UA 1
      (by omega) rfl,
    extract_value_semantics.2.1 hrefAttrEl none,
    extract_value_semantics.2.2.1 hrefAttrEl none,
    extract_value_semantics.2.2.2.1 hrefAttrEl "href" "/d/1" (by decide) rfl (by decide),
    extract_value_semantics.2.2.2.2.1 emptyAttrEl "href" (by decide) rfl,
    extract_value_semantics.2.2.2.2.2 hrefAttrEl "nope" (by decide) rfl⟩

/-- Claim C6: a navigation field whose link resolution yields an
OpaqueId (the data-id marker) and whose jump configuration has no
urlTemplate resolves to null with no fetch of a next document (empty
fetch trace, no error raised), the per-item loop records the null and
continues with the remaining fields unchanged, and a crawl whose list
selector matched keeps success = true. -/
theorem opaque_id_no_template (env : Env) (item el : Cursor) (field : FieldConfig)
    (jc : JumpConfig) (rest : List FieldConfig) (url cookie ua : String)
    (acc : List (String × Value)) (errs : List String) (href : String)
    (hj : field.isJump = true) (hc : field.jumpConfig = some jc)
    (ht : optTruthy jc.urlTemplate = false)
    (hel : (findAll item field.selector).head? = some el)
    (hlink : findClickableLink el jc.clickSelector = some href)
    (hdata : strStartsWith href dataIdMark = true) :
    extractFieldT env item field url cookie ua 1 = (.ok .null, [])
    ∧ buildRecordAux env item (field :: rest) url cookie ua acc errs
        = buildRecordAux env item rest url cookie ua (recordInsert acc field.name .null) errs
    ∧ (∀ (opts : CrawlerOptions) (doc : Node),
        env.fetch opts.url (reqHeaders opts) = .ok doc →
        selectAll doc opts.listSelector ≠ [] →
        (crawl env opts).success = true) := by
  obtain ⟨n, sel, ty, a, isj, jco⟩ := field
  simp only [FieldConfig.isJump] at hj
  simp only [FieldConfig.jumpConfig] at hc
  subst hj
  subst hc
  obtain ⟨cSel, tSel, uT, jflds⟩ := jc
  simp only [JumpConfig.clickSelector] at hlink
  simp only [JumpConfig.urlTemplate] at ht
  simp only [FieldConfig.selector] at hel
  have h1 : extractFieldT env item (.mk n sel ty a true (some (.mk cSel tSel uT jflds)))
      url cookie ua 1 = (.ok .null, []) := by
    unfold extractFieldT
    rw [show (4 : Nat) = 3 + 1 from rfl, extractFieldGo]
    rw [if_neg (by omega)]
    simp only [FieldConfig.selector]
    rw [hel]
    dsimp only
    rw [hlink]
    simp [hdata, ht]
  refine ⟨h1, ?_, ?_⟩
  · simp only [buildRecordAux, h1, FieldConfig.name, List.nil_append]
  · intro opts doc hf hne
    exact crawl_success_of_matches env opts doc hf hne

/-- Witness for C6 on the data-item-id card scenario. -/
theorem opaque_id_no_template_witness :
    extractFieldT envOpaque itemOpaqueCur opaqueFld "https://s/l" "" DEFAULT_UA 1
      = (.ok .null, [])
    ∧ buildRecordAux envOpaque itemOpaqueCur (opaqueFld :: [titleFld]) "https://s/l" ""
        DEFAULT_UA [] []
      = buildRecordAux envOpaque itemOpaqueCur [titleFld] "https://s/l" "" DEFAULT_UA
          (recordInsert [] opaqueFld.name .null) []
    ∧ (crawl envOpaque optsOpaque).success = true := by
  have h := opaque_id_no_template envOpaque itemOpaqueCur cardOpaqueCur opaqueFld jcOpaque
    [titleFld] "https://s/l" "" DEFAULT_UA [] [] "__data_id__:42" rfl rfl rfl rfl rfl rfl
  exact ⟨h.1, h.2.1, h.2.2 optsOpaque docOpaque rfl (List.ne_nil_of_length_pos (by decide))⟩

/-- Counterexample for C1: on a chain configured to recurse a 4th
level, the depth error propagates through the un-guarded child-field
loops to the top-level field boundary — the whole top-level field
"chain" is null (the level-2/3 sibling values "V2"/"V3" appear nowhere
in the result), not just the 4th-level field, contradicting the
claim's "all sibling fields at every level still receive their
normally-extracted values". -/
theorem depth_chain_counterexample :
    crawl env1 opts1
      = ⟨true, [[("title", Value.str "T1"), ("chain", Value.null)]],
          ["chain: " ++ depthErrMsg]⟩
    ∧ List.lookup "chain" ((crawl env1 opts1).data.headD []) = some Value.null :=
  ⟨rfl, rfl⟩

/-- Claim C1 (amended): entering extractField at a depth counter > 3
throws the depth error immediately, with no fetch; the error
propagates uncaught through intermediate navigation levels (the
child-field loop has no guard) to the per-field guard of crawl's item
loop, which records the entire top-level field as null, appends
exactly one "name: 最多支持3跳" message, and continues with the
remaining top-level fields and records — intermediate-level sibling
values inside the chain are discarded rather than kept. -/
theorem depth_guard_isolation :
    (∀ (env : Env) (element : Cursor) (field : FieldConfig) (b c u : String) (lvl : Nat),
      lvl > 3 → extractFieldT env element field b c u lvl = (.error depthErrMsg, []))
    ∧ (∀ (env : Env) (item : Cursor) (f : FieldConfig) (rest : List FieldConfig)
        (url cookie ua e : String) (t : List String) (acc : List (String × Value))
        (errs : List String),
        extractFieldT env item f url cookie ua 1 = (.error e, t) →
        (buildRecordAux env item (f :: rest) url cookie ua acc errs).1
          = (buildRecordAux env item rest url cookie ua (recordInsert acc f.name .null)
              (errs ++ [f.name ++ ": " ++ e])).1
        ∧ (buildRecordAux env item (f :: rest) url cookie ua acc errs).2.1
          = (buildRecordAux env item rest url cookie ua (recordInsert acc f.name .null)
              (errs ++ [f.name ++ ": " ++ e])).2.1) := by
  constructor
  · intro env el f b c u lvl hlvl
    unfold extractFieldT
    rw [show (4 : Nat) = 3 + 1 from rfl, extractFieldGo]
    rw [if_pos hlvl]
  · intro env item f rest url cookie ua e t acc errs hE
    constructor <;> simp only [buildRecordAux, hE]

/-- Witness for the amended C1: the depth guard at level 4, and the
isolation of the erroring chain field from its top-level sibling, on
the concrete 4-level chain. -/
theorem depth_guard_isolation_witness :
    extractFieldT env1 itemC1Cur titleFld "https://s/l" "" DEFAULT_UA 4
      = (.error depthErrMsg, [])
    ∧ (buildRecordAux env1 itemC1Cur (chainFldC1 :: [titleFld]) "https://s/l" ""
        DEFAULT_UA [] []).1
      = (buildRecordAux env1 itemC1Cur [titleFld] "https://s/l" "" DEFAULT_UA
          (recordInsert [] chainFldC1.name .null)
          ([] ++ [chainFldC1.name ++ ": " ++ depthErrMsg])).1
    ∧ (buildRecordAux env1 itemC1Cur (chainFldC1 :: [titleFld]) "https://s/l" ""
        DEFAULT_UA [] []).2.1
      = (buildRecordAux env1 itemC1Cur [titleFld] "https://s/l" "" DEFAULT_UA
          (recordInsert [] chainFldC1.name .null)
          ([] ++ [chainFldC1.name ++ ": " ++ depthErrMsg])).2.1 := by
  have h2 := depth_guard_isolation.2 env1 itemC1Cur chainFldC1 [titleFld] "https://s/l" ""
    DEFAULT_UA depthErrMsg ["/p2", "/p3", "/p4"] [] [] rfl
  exact ⟨depth_guard_isolation.1 env1 itemC1Cur titleFld "https://s/l" "" DEFAULT_UA 4
    (by omega), h2.1, h2.2⟩

/-- The child-field loop respects pointwise-equal child extractors. -/
theorem extractFieldsGoWith_congr (f g : FieldConfig → Except String Value × List String)
    (h : ∀ sf, f sf = g sf) :
    ∀ (l : List FieldConfig) (acc : List (String × Value)),
      extractFieldsGoWith f l acc = extractFieldsGoWith g l acc := by
  intro l
  induction l with
  | nil => intro acc; rfl
  | cons sf rest ih =>
    intro acc
    simp only [extractFieldsGoWith, h sf, ih]

/-- The fuel is semantically invisible: any two fuels large enough that
the depth guard fires first give the same result. -/
theorem extractFieldGo_fuel_irrel :
    ∀ (f1 f2 : Nat) (env : Env) (element : Cursor) (field : FieldConfig)
      (b c u : String) (j : Nat), 3 < j + f1 → 3 < j + f2 →
      extractFieldGo f1 env element field b c u j
        = extractFieldGo f2 env element field b c u j := by
  intro f1
  induction f1 with
  | zero =>
    intro f2 env el fld b c u j h1 h2
    have hj : j > 3 := by omega
    cases f2 with
    | zero => rfl
    | succ k => simp only [extractFieldGo, if_pos hj]
  | succ a ih =>
    intro f2 env el fld b c u j h1 h2
    cases f2 with
    | zero =>
      have hj : j > 3 := by omega
      simp only [extractFieldGo, if_pos hj]
    | succ k =>
      by_cases hj : j > 3
      · simp only [extractFieldGo, if_pos hj]
      · rw [extractFieldGo, extractFieldGo, if_neg hj, if_neg hj]
        cases hfind : (findAll el fld.selector).head? with
        | none => rfl
        | some elx =>
          rcases fld with ⟨n, sel, ty, fa, isj, jc?⟩
          rcases jc? with _ | jc
          · cases isj <;> rfl
          · cases isj with
            | false => rfl
            | true =>
              rcases jc with ⟨cSel, tSel, uT, jflds⟩
              dsimp only
              cases hlink : findClickableLink elx cSel with
              | none => rfl
              | some href0 =>
                dsimp only
                cases hhr : (if strStartsWith href0 dataIdMark = true then
                    if optTruthy uT = true then
                      some (replaceFirst (uT.getD "") "\x7bid\x7d"
                        (replaceFirst href0 dataIdMark ""))
                    else none
                  else some href0) with
                | none => rfl
                | some href =>
                  dsimp only
                  cases hfet : env.fetch (resolveUrl env.mkUrl b href) (mkHeaders c u) with
                  | error e => rfl
                  | ok doc =>
                    dsimp only
                    cases htgt : (if optTruthy tSel = true then
                        (selectAll doc (tSel.getD "")).head?
                      else (selectAll doc "body").head?) with
                    | none => rfl
                    | some target =>
                      dsimp only
                      cases hje : jflds.isEmpty with
                      | true => rfl
                      | false =>
                        rw [extractFieldsGoWith_congr
                          (fun sf => extractFieldGo a env target sf
                            (resolveUrl env.mkUrl b href) c u (j + 1))
                          (fun sf => extractFieldGo k env target sf
                            (resolveUrl env.mkUrl b href) c u (j + 1))
                          (fun sf => ih k env target sf (resolveUrl env.mkUrl b href) c u
                            (j + 1) (by omega) (by omega)) jflds []]
